import Mathlib

/-!
# Verification of the spherex-s3-upload-agent upload pipeline

Shallow embedding of `src/app/uploader.py` (with the data model of
`src/app/models.py` and the relevant settings of `src/app/config.py`).

The uploader is modelled as a deterministic trace semantics: every run
produces the list of observable effects it performs, in program order —
filesystem accesses, object-store (S3) calls, progress-sink deliveries and
job-status updates.  The asyncio worker pool processes each queued entry
exactly once and the per-entry effect sequence is produced by a single
sequential coroutine (`upload_file_to_s3`), so the model serialises the
worker interleavings: the trace is the concatenation of the per-entry
traces followed by the final job update.  Per-entry event sequences and
all event counts are exactly those of the source.

`JobUploadHandler` / `get_job_upload_handler` are imported by
`src/app/uploader.py` from `app.utils` but are not defined anywhere under
`src/`.  Modelled from the spec: the Progress Sink "receives start /
success / failure events per entry and per job" and "failures to deliver a
progress event must be logged but must not fail the transfer itself", so
`handler.handle_job_entry_update` / `handler.handle_job_update` are
modelled as appending the delivered event to the trace, never raising.

Timestamps (`started_at` / `completed_at`) are not modelled: no claim
depends on wall-clock values, only on trace order.
-/

namespace SpherexS3

/-! ## Tunable constants (uploader.py lines 50-53) -/

/-- uploader.py line 51: `MULTIPART_ENABLED = False`. -/
def MULTIPART_ENABLED : Bool := false

/-- uploader.py line 52: 50 MB threshold. -/
def MULTIPART_THRESHOLD : Nat := 50 * 1024 * 1024

/-- uploader.py line 53: 8 MB per part. -/
def PART_SIZE : Nat := 8 * 1024 * 1024

/-! ## Settings (config.py lines 17-33) -/

/-- config.py line 22: default I/O concurrency. -/
def IO_CONCURRENCY : Nat := 32

/-- config.py line 26: default network concurrency. -/
def NETWORK_CONCURRENCY : Nat := 100

/-- config.py lines 30-33: computed field `max(IO_CONCURRENCY, NETWORK_CONCURRENCY)*2`. -/
def BUFFER_QUEUE_SIZE (io_concurrency network_concurrency : Nat) : Nat :=
  (max io_concurrency network_concurrency) * 2

/-- `settings.BUFFER_QUEUE_SIZE` at the default settings values. -/
def defaultBufferQueueSize : Nat := BUFFER_QUEUE_SIZE IO_CONCURRENCY NETWORK_CONCURRENCY

/-! ## Data model (models.py) -/

/-- models.py `JobStatus`. -/
inductive JobStatus where
  | PENDING | CANCELLED | RUNNING | COMPLETED | ERROR
  deriving Repr, DecidableEq

/-- models.py `JobEntryStatus`. -/
inductive JobEntryStatus where
  | STARTED | COMPLETED | ERROR
  deriving Repr, DecidableEq

/-- models.py `ManifestEntry` (UUIDs modelled as `Nat`). -/
structure ManifestEntry where
  id : Nat
  ops_key : String
  bucket_key : String
  deriving Repr, DecidableEq

/-- models.py `Manifest`, restricted to the fields the uploader reads. -/
structure Manifest where
  id : Nat
  ops_root_dir : String
  total_files : Nat
  entries : Option (List ManifestEntry)
  deriving Repr, DecidableEq

/-- models.py `Job`, restricted to the fields the uploader reads. -/
structure Job where
  id : Nat
  manifest_id : Nat
  status : JobStatus := JobStatus.PENDING
  mock : Bool := false
  count : Option Nat := none
  aws_unsigned : Bool := false
  manifest : Option Manifest := none
  deriving Repr, DecidableEq

/-- models.py `JobEntryLogRequest` (timestamps omitted, see module comment). -/
structure JobEntryLogRequest where
  job_id : Nat
  entry_id : Nat
  status : JobEntryStatus
  message : Option String := none
  deriving Repr, DecidableEq

/-! ## Environment models: filesystem and S3 client -/

/-- State of one local file: `readable` holds the bytes `read_bytes` returns;
`unreadable` is a file for which `is_file()` and `stat()` succeed (with the
given `st_size`) but every read raises. -/
inductive FileState where
  | readable (content : List Nat)
  | unreadable (size : Nat)
  deriving Repr, DecidableEq

/-- The local filesystem: `none` means `path.is_file()` is false. -/
def FS := String → Option FileState

/-- `path.stat().st_size`. -/
def fileSize : FileState → Nat
  | .readable content => content.length
  | .unreadable size => size

/-- Error message of a failed chunk read (the OSError text is opaque). -/
def readErrMsg (path : String) : String := "read failed: " ++ path

/-- `str(FileNotFoundError(path))` prints the path. -/
def fileNotFoundMsg (path : String) : String := path

/-- Error message of a failed `put_object` call. -/
def putErrMsg : String := "put_object failed"

/-- Error message of a failed `create_multipart_upload` call. -/
def createErrMsg : String := "create_multipart_upload failed"

/-- Error message of a failed `upload_part` call. -/
def partErrMsg : String := "upload_part failed"

/-- Error message of a failed `complete_multipart_upload` call. -/
def completeErrMsg : String := "complete_multipart_upload failed"

/-- A read of `size` bytes at `offset` (uploader.py lines 282-287): succeeds
with the file's bytes for a readable file, raises for an unreadable one. -/
def readChunk : FileState → Nat → Nat → Except String (List Nat)
  | .readable content, offset, size => .ok ((content.drop offset).take size)
  | .unreadable _, _, _ => .error "chunk read failed"

/-- The aiobotocore S3 client, modelled by which calls succeed.  `abort_ok`
is never consulted by the model because uploader.py lines 317-320 swallow an
abort failure (`except Exception: logger.debug(...)`); it is kept to state
that the outcome is independent of it. -/
structure S3Client where
  put_ok : String → Bool
  create_ok : String → Bool
  upload_id : String
  etag : Nat → String
  part_ok : Nat → Bool
  complete_ok : Bool
  abort_ok : Bool

/-! ## Observable events -/

/-- One observable effect of a run, in program order. -/
inductive Event where
  | fsStat (path : String)
  | fsRead (path : String)
  | s3Put (bucket key : String) (body : List Nat)
  | s3CreateMultipart (bucket key : String)
  | s3UploadPart (bucket key uploadId : String) (partNumber : Nat) (body : List Nat)
  | s3CompleteMultipart (bucket key uploadId : String) (parts : List (String × Nat))
  | s3AbortMultipart (bucket key uploadId : String)
  | entryLog (l : JobEntryLogRequest)
  | jobUpdate (status : JobStatus) (message : Option String)
  deriving Repr, DecidableEq

/-! ## Multipart upload (uploader.py lines 256-321) -/

/-- The part loop of `upload_large_file_multipart` (uploader.py lines
273-304), parametrised by the part size (the source fixes it to
`PART_SIZE`, which is positive; the `0 < partSize` guard only rules out the
nonterminating `partSize = 0` loop, unreachable in the source).  Returns the
events of the loop and either the accumulated `{ETag, PartNumber}` list or
the first error raised. -/
def multipartLoop (client : S3Client) (bucket key uploadId path : String)
    (partSize : Nat) (st : FileState) (fileSz offset partNumber : Nat)
    (parts : List (String × Nat)) : List Event × Except String (List (String × Nat)) :=
  if _h : offset < fileSz ∧ 0 < partSize then
    let chunkSize := min partSize (fileSz - offset)
    match readChunk st offset chunkSize with
    | .error e => ([Event.fsRead path], .error e)
    | .ok chunk =>
      if client.part_ok partNumber then
        let rest := multipartLoop client bucket key uploadId path partSize st fileSz
          (offset + chunkSize) (partNumber + 1)
          (parts ++ [(client.etag partNumber, partNumber)])
        (Event.fsRead path :: Event.s3UploadPart bucket key uploadId partNumber chunk :: rest.1,
         rest.2)
      else
        ([Event.fsRead path, Event.s3UploadPart bucket key uploadId partNumber chunk],
         .error partErrMsg)
  else
    ([], .ok parts)
termination_by fileSz - offset
decreasing_by
  omega

/-- `upload_large_file_multipart` (uploader.py lines 256-321) parametrised
by the part size.  Returns the trace of issued calls and the overall result:
`.error e` means the function re-raised exception `e` to its caller. -/
def upload_large_file_multipartP (partSize : Nat) (client : S3Client)
    (bucket_name bucket_key path : String) (st : FileState) :
    List Event × Except String Unit :=
  if client.create_ok bucket_key then
    let uploadId := client.upload_id
    let fileSz := fileSize st
    let lr := multipartLoop client bucket_name bucket_key uploadId path partSize st fileSz 0 1 []
    match lr.2 with
    | .error e =>
        (Event.s3CreateMultipart bucket_name bucket_key :: Event.fsStat path :: lr.1
          ++ [Event.s3AbortMultipart bucket_name bucket_key uploadId], .error e)
    | .ok parts =>
        if client.complete_ok then
          (Event.s3CreateMultipart bucket_name bucket_key :: Event.fsStat path :: lr.1
            ++ [Event.s3CompleteMultipart bucket_name bucket_key uploadId parts], .ok ())
        else
          (Event.s3CreateMultipart bucket_name bucket_key :: Event.fsStat path :: lr.1
            ++ [Event.s3CompleteMultipart bucket_name bucket_key uploadId parts,
                Event.s3AbortMultipart bucket_name bucket_key uploadId],
           .error completeErrMsg)
  else
    ([Event.s3CreateMultipart bucket_name bucket_key], .error createErrMsg)

/-- `upload_large_file_multipart` at the source's part size `PART_SIZE`. -/
def upload_large_file_multipart (client : S3Client) (bucket_name bucket_key path : String)
    (st : FileState) : List Event × Except String Unit :=
  upload_large_file_multipartP PART_SIZE client bucket_name bucket_key path st

/-! ## Single-entry upload (uploader.py lines 196-253) -/

/-- `upload_file_to_s3` (uploader.py lines 196-253).  The returned trace
records, in order: the mock short-circuit, `is_file` / `stat` accesses,
the read, the S3 call(s), and the single progress-sink delivery.  The
`entry_log` is created with status STARTED (line 219) but is only delivered
after its status field has been overwritten to COMPLETED or ERROR. -/
def upload_file_to_s3 (job : Job) (entry : ManifestEntry) (file_path : String)
    (bucket_name bucket_key : String) (client : S3Client) (fs : FS) : List Event :=
  if job.mock then
    [Event.entryLog { job_id := job.id, entry_id := entry.id,
                      status := JobEntryStatus.COMPLETED,
                      message := some ("Uploaded " ++ file_path ++ " (mock)") }]
  else
    match fs file_path with
    | none =>
        -- `path.is_file()` is false: raise FileNotFoundError(path), caught at line 243
        [Event.fsStat file_path,
         Event.entryLog { job_id := job.id, entry_id := entry.id,
                          status := JobEntryStatus.ERROR,
                          message := some ("Error uploading file " ++ file_path ++ ": "
                            ++ fileNotFoundMsg file_path) }]
    | some st =>
        let size := fileSize st
        if MULTIPART_ENABLED && decide (MULTIPART_THRESHOLD ≤ size) && !job.aws_unsigned then
          let mp := upload_large_file_multipart client bucket_name bucket_key file_path st
          match mp.2 with
          | .ok _ =>
              Event.fsStat file_path :: Event.fsStat file_path :: mp.1
                ++ [Event.entryLog { job_id := job.id, entry_id := entry.id,
                                     status := JobEntryStatus.COMPLETED,
                                     message := some ("Uploaded " ++ file_path) }]
          | .error e =>
              Event.fsStat file_path :: Event.fsStat file_path :: mp.1
                ++ [Event.entryLog { job_id := job.id, entry_id := entry.id,
                                     status := JobEntryStatus.ERROR,
                                     message := some ("Error uploading file " ++ file_path
                                       ++ ": " ++ e) }]
        else
          match st with
          | .readable body =>
              Event.fsStat file_path :: Event.fsStat file_path :: Event.fsRead file_path
                :: Event.s3Put bucket_name bucket_key body
                :: (if client.put_ok bucket_key then
                      [Event.entryLog { job_id := job.id, entry_id := entry.id,
                                        status := JobEntryStatus.COMPLETED,
                                        message := some ("Uploaded " ++ file_path) }]
                    else
                      [Event.entryLog { job_id := job.id, entry_id := entry.id,
                                        status := JobEntryStatus.ERROR,
                                        message := some ("Error uploading file " ++ file_path
                                          ++ ": " ++ putErrMsg) }])
          | .unreadable _ =>
              [Event.fsStat file_path, Event.fsStat file_path, Event.fsRead file_path,
               Event.entryLog { job_id := job.id, entry_id := entry.id,
                                status := JobEntryStatus.ERROR,
                                message := some ("Error uploading file " ++ file_path ++ ": "
                                  ++ readErrMsg file_path) }]

/-! ## Transfer queue (uploader.py lines 140-150) -/

/-- uploader.py line 146 creates `asyncio.Queue()` with the default
`maxsize=0`, which in asyncio means unbounded. -/
def transferQueueMaxsize : Nat := 0

/-- asyncio semantics: `await q.put(item)` blocks iff the queue was created
with a positive `maxsize` and currently holds at least `maxsize` items. -/
def queuePutBlocks (maxsize qsize : Nat) : Bool :=
  decide (0 < maxsize) && decide (maxsize ≤ qsize)

/-- The producer loop (uploader.py lines 149-150): every entry is enqueued
before any worker task is created (line 177), so the loop runs to completion
with no consumer; the queue content after it is the whole entry list. -/
def enqueueAll (entries : List ManifestEntry) : List ManifestEntry :=
  entries.foldl (fun q e => q ++ [e]) []

/-! ## Batch upload (uploader.py lines 86-192) -/

/-- Entry selection (uploader.py lines 120-125): truncate to `job.count`
when it is set. -/
def selectedEntries (count : Option Nat) (es : List ManifestEntry) : List ManifestEntry :=
  match count with
  | some c => es.take c
  | none => es

/-- Worker-side path construction (uploader.py line 158):
`Path(manifest.ops_root_dir) / Path(entry.ops_key)`. -/
def opsFilePath (ops_root_dir ops_key : String) : String :=
  ops_root_dir ++ "/" ++ ops_key

/-- `upload_to_s3_in_batch` (uploader.py lines 86-192).  Returns the run's
trace.  Lines 88-90: if the job has no manifest, or the manifest's entries
are `None` or the empty list (both falsy), the function returns at once with
no effect.  Otherwise each selected entry is processed exactly once by the
worker pool (serialised here, see module comment) and, after `q.join()`,
the job-level COMPLETED update is delivered (lines 188-192). -/
def upload_to_s3_in_batch (job : Job) (bucket_name : String) (client : S3Client)
    (fs : FS) : List Event :=
  match job.manifest with
  | none => []
  | some manifest =>
    match manifest.entries with
    | none => []
    | some es =>
      if es.isEmpty then []
      else
        let entries := selectedEntries job.count es
        (entries.map (fun e =>
          upload_file_to_s3 job e (opsFilePath manifest.ops_root_dir e.ops_key)
            bucket_name e.bucket_key client fs)).flatten
        ++ [Event.jobUpdate JobStatus.COMPLETED (some "Job completed")]

/-- `run_job` (uploader.py lines 57-83): fetch the manifest, attach it to the
job, post the RUNNING status update (lines 63-69), then run the batch.  The
trailing `log.info` reporting has no modelled effect. -/
def run_job (job : Job) (manifest : Manifest) (bucket_name : String) (client : S3Client)
    (fs : FS) : List Event :=
  let job' := { job with manifest := some manifest, status := JobStatus.RUNNING }
  Event.jobUpdate JobStatus.RUNNING none :: upload_to_s3_in_batch job' bucket_name client fs

/-! ## Trace observations -/

/-- Project an event onto its progress-sink entry delivery, if any. -/
def entryLogOf : Event → Option JobEntryLogRequest
  | .entryLog l => some l
  | _ => none

/-- The entry-level deliveries of a trace, in order. -/
def entryLogs (tr : List Event) : List JobEntryLogRequest :=
  tr.filterMap entryLogOf

/-- Is this event an object-store call (put, create/upload-part/complete/abort)? -/
def isS3Call : Event → Bool
  | .s3Put _ _ _ => true
  | .s3CreateMultipart _ _ => true
  | .s3UploadPart _ _ _ _ _ => true
  | .s3CompleteMultipart _ _ _ _ => true
  | .s3AbortMultipart _ _ _ => true
  | _ => false

/-- Is this event a filesystem access (stat or read)? -/
def isFsAccess : Event → Bool
  | .fsStat _ => true
  | .fsRead _ => true
  | _ => false

/-- Is this event a `put_object` call? -/
def isPut : Event → Bool
  | .s3Put _ _ _ => true
  | _ => false

/-- Is this event a `create_multipart_upload` call? -/
def isCreateMultipart : Event → Bool
  | .s3CreateMultipart _ _ => true
  | _ => false

/-- Is this event an `abort_multipart_upload` call? -/
def isAbortMultipart : Event → Bool
  | .s3AbortMultipart _ _ _ => true
  | _ => false

/-- Project an event onto its uploaded part `(partNumber, body)`, if any. -/
def partEventOf : Event → Option (Nat × List Nat)
  | .s3UploadPart _ _ _ n body => some (n, body)
  | _ => none

/-- The `{ETag, PartNumber}` list of the trace's completion call, if one
was issued. -/
def completePartsOf (tr : List Event) : Option (List (String × Nat)) :=
  tr.findSome? fun ev =>
    match ev with
    | .s3CompleteMultipart _ _ _ parts => some parts
    | _ => none

/-- A terminal progress status (COMPLETED or ERROR). -/
def isTerminal (s : JobEntryStatus) : Bool :=
  match s with
  | .COMPLETED => true
  | .ERROR => true
  | .STARTED => false

/-- Does the Progress Sink ever receive a terminal entry event without a
prior STARTED event for the same entry?  Returns `true` iff every terminal
delivery at index `i` is preceded by a STARTED delivery for the same
`entry_id` at some index `j < i`. -/
def startedBeforeTerminal (tr : List Event) : Bool :=
  let logs := entryLogs tr
  (List.range logs.length).all fun i =>
    match logs[i]? with
    | some l =>
        !(isTerminal l.status) ||
          ((List.range i).any fun j =>
            match logs[j]? with
            | some l2 => l2.entry_id == l.entry_id && l2.status == JobEntryStatus.STARTED
            | none => false)
    | none => true

/-! ## Reference chunking (for the multipart statements) -/

/-- The sequence of chunks `upload_large_file_multipart` reads: repeatedly
take `partSize` bytes (the last chunk may be shorter). -/
def chunksOf (partSize : Nat) (l : List Nat) : List (List Nat) :=
  if _h : l.isEmpty ∨ partSize = 0 then []
  else l.take partSize :: chunksOf partSize (l.drop partSize)
termination_by l.length
decreasing_by
  simp only [List.length_drop]
  rcases l with _ | ⟨a, l⟩
  · simp at _h
  · simp at _h ⊢
    omega

/-- The uploaded parts `(partNumber, body)` recorded in a trace, in order. -/
def partsOf (tr : List Event) : List (Nat × List Nat) :=
  tr.filterMap partEventOf

/-- Specification of the tag list the part loop accumulates: `count` pairs
`(etag pn, pn)` with consecutive part numbers starting at `pn`. -/
def expectedTags (client : S3Client) : Nat → Nat → List (String × Nat)
  | _, 0 => []
  | pn, count + 1 => (client.etag pn, pn) :: expectedTags client (pn + 1) count

/-- Specification of the part loop's event stream: for each chunk, a read
followed by the part upload, with consecutive part numbers from `pn`. -/
def expectedLoopEvents (client : S3Client) (bucket key uploadId path : String) :
    Nat → List (List Nat) → List Event
  | _, [] => []
  | pn, c :: cs =>
      Event.fsRead path :: Event.s3UploadPart bucket key uploadId pn c
        :: expectedLoopEvents client bucket key uploadId path (pn + 1) cs

/-! ## Concrete fixtures (used to instantiate the theorems) -/

/-- A first concrete manifest entry. -/
def wEntryA : ManifestEntry := { id := 7, ops_key := "a.fits", bucket_key := "k/a.fits" }

/-- A second concrete manifest entry (its source file is missing). -/
def wEntryB : ManifestEntry := { id := 8, ops_key := "b.fits", bucket_key := "k/b.fits" }

/-- A third concrete manifest entry. -/
def wEntryC : ManifestEntry := { id := 9, ops_key := "c.fits", bucket_key := "k/c.fits" }

/-- A concrete manifest holding the three entries above. -/
def wManifest : Manifest :=
  { id := 2, ops_root_dir := "/r", total_files := 3,
    entries := some [wEntryA, wEntryB, wEntryC] }

/-- A concrete job with the manifest attached. -/
def wJob : Job := { id := 1, manifest_id := 2, manifest := some wManifest }

/-- An S3 client on which every call succeeds. -/
def okClient : S3Client :=
  { put_ok := fun _ => true, create_ok := fun _ => true, upload_id := "U",
    etag := fun n => "e" ++ toString n, part_ok := fun _ => true,
    complete_ok := true, abort_ok := true }

/-- A concrete filesystem: `a.fits` and `c.fits` exist, `b.fits` is missing. -/
def wFS : FS := fun p =>
  if p = "/r/a.fits" then some (.readable [9, 9])
  else if p = "/r/c.fits" then some (.readable [1])
  else none

/-- The concrete job in mock (dry-run) mode. -/
def wMockJob : Job := { wJob with mock := true }

/-- A payload exactly at the multipart threshold (not materialised in
proofs: only its length is ever evaluated). -/
def bigContent : List Nat := List.replicate MULTIPART_THRESHOLD 0

/-- A filesystem holding one threshold-sized file. -/
def bigFS : FS := fun p =>
  if p = "/r/a.fits" then some (.readable bigContent) else none

/-- A client on which the second `upload_part` call and every abort fail. -/
def failPartClient : S3Client :=
  { okClient with part_ok := fun n => decide (n ≠ 2), abort_ok := false }

/-- 265 concrete entries: one more than the default `BUFFER_QUEUE_SIZE`. -/
def manyEntries : List ManifestEntry :=
  (List.range 265).map fun i => { id := i, ops_key := "x", bucket_key := "x" }

/-- A concrete manifest with no entry list attached. -/
def emptyManifest : Manifest :=
  { id := 3, ops_root_dir := "/r", total_files := 0, entries := none }

/-! ## Helper lemmas -/

/-- Every call to `upload_file_to_s3` delivers exactly one entry event to the
Progress Sink: it carries the job's and the entry's ids, a terminal status,
and — when it is an ERROR — a message of the form
`"Error uploading file <path>: <error>"`. -/
theorem entryLogs_upload_file (job : Job) (entry : ManifestEntry)
    (file_path bucket_name bucket_key : String) (client : S3Client) (fs : FS) :
    ∃ l : JobEntryLogRequest,
      entryLogs (upload_file_to_s3 job entry file_path bucket_name bucket_key client fs) = [l]
      ∧ l.job_id = job.id ∧ l.entry_id = entry.id
      ∧ isTerminal l.status = true
      ∧ (l.status = JobEntryStatus.ERROR →
          ∃ e, l.message = some ("Error uploading file " ++ file_path ++ ": " ++ e)) := by
  unfold upload_file_to_s3
  rcases hmock : job.mock
  · rcases hfs : fs file_path with _ | st
    · exact ⟨{ job_id := job.id, entry_id := entry.id, status := JobEntryStatus.ERROR,
               message := some ("Error uploading file " ++ file_path ++ ": "
                 ++ fileNotFoundMsg file_path) },
        by simp [entryLogs, entryLogOf], rfl, rfl, rfl,
        fun _ => ⟨fileNotFoundMsg file_path, rfl⟩⟩
    · rcases st with content | sz
      · rcases hput : client.put_ok bucket_key
        · exact ⟨{ job_id := job.id, entry_id := entry.id, status := JobEntryStatus.ERROR,
                   message := some ("Error uploading file " ++ file_path ++ ": " ++ putErrMsg) },
            by simp [MULTIPART_ENABLED, entryLogs, entryLogOf, hput], rfl, rfl, rfl,
            fun _ => ⟨putErrMsg, rfl⟩⟩
        · exact ⟨{ job_id := job.id, entry_id := entry.id, status := JobEntryStatus.COMPLETED,
                   message := some ("Uploaded " ++ file_path) },
            by simp [MULTIPART_ENABLED, entryLogs, entryLogOf, hput], rfl, rfl, rfl, by simp⟩
      · exact ⟨{ job_id := job.id, entry_id := entry.id, status := JobEntryStatus.ERROR,
                 message := some ("Error uploading file " ++ file_path ++ ": "
                   ++ readErrMsg file_path) },
          by simp [MULTIPART_ENABLED, entryLogs, entryLogOf], rfl, rfl, rfl,
          fun _ => ⟨readErrMsg file_path, rfl⟩⟩
  · exact ⟨{ job_id := job.id, entry_id := entry.id, status := JobEntryStatus.COMPLETED,
             message := some ("Uploaded " ++ file_path ++ " (mock)") },
      by simp [entryLogs, entryLogOf], rfl, rfl, rfl, by simp⟩

/-- Shape of a nonempty batch run: the per-entry traces in selection order,
followed by the job-level COMPLETED update. -/
theorem upload_to_s3_in_batch_eq (job : Job) (m : Manifest) (es : List ManifestEntry)
    (bucket_name : String) (client : S3Client) (fs : FS)
    (hm : job.manifest = some m) (he : m.entries = some es) (hne : es ≠ []) :
    upload_to_s3_in_batch job bucket_name client fs =
      ((selectedEntries job.count es).map (fun e =>
        upload_file_to_s3 job e (opsFilePath m.ops_root_dir e.ops_key)
          bucket_name e.bucket_key client fs)).flatten
      ++ [Event.jobUpdate JobStatus.COMPLETED (some "Job completed")] := by
  simp [upload_to_s3_in_batch, hm, he, hne]

/-- `entryLogs` distributes over concatenation. -/
theorem entryLogs_append (tr1 tr2 : List Event) :
    entryLogs (tr1 ++ tr2) = entryLogs tr1 ++ entryLogs tr2 := by
  simp [entryLogs]

/-- The entry deliveries of the per-entry part of a batch run: one per
selected entry, in order, with the job id, a terminal status, and error
messages of the source's form. -/
theorem entryLogs_per_entry_map (job : Job) (bucket_name root : String)
    (client : S3Client) (fs : FS) (entries : List ManifestEntry) :
    (entryLogs ((entries.map (fun e =>
        upload_file_to_s3 job e (opsFilePath root e.ops_key)
          bucket_name e.bucket_key client fs)).flatten)).map (fun l => l.entry_id)
      = entries.map (fun e => e.id) ∧
    ∀ l ∈ entryLogs ((entries.map (fun e =>
        upload_file_to_s3 job e (opsFilePath root e.ops_key)
          bucket_name e.bucket_key client fs)).flatten),
      l.job_id = job.id ∧ isTerminal l.status = true ∧
        (l.status = JobEntryStatus.ERROR →
          ∃ p e, l.message = some ("Error uploading file " ++ p ++ ": " ++ e)) := by
  induction entries with
  | nil => simp [entryLogs]
  | cons e rest ih =>
    obtain ⟨l, hl, hjob, hid, hterm, herr⟩ :=
      entryLogs_upload_file job e (opsFilePath root e.ops_key) bucket_name e.bucket_key client fs
    refine ⟨?_, ?_⟩
    · simp only [List.map_cons, List.flatten_cons, entryLogs_append, hl, List.map_append]
      simp [hid, ih.1]
    · intro l' hl'
      simp only [List.map_cons, List.flatten_cons, entryLogs_append, hl,
        List.mem_append, List.mem_singleton] at hl'
      rcases hl' with h | h
      · subst h
        exact ⟨hjob, hterm, fun hs => ⟨_, _, (herr hs).choose_spec⟩⟩
      · exact ih.2 l' h

/-! ## Chunking and multipart-loop lemmas -/

/-- Chunking the empty payload gives no chunks. -/
theorem chunksOf_nil (P : Nat) : chunksOf P [] = [] := by
  rw [chunksOf]; simp

/-- Chunking a nonempty payload: first `partSize` bytes, then the rest. -/
theorem chunksOf_cons {P : Nat} {l : List Nat} (hl : l ≠ []) (hP : 0 < P) :
    chunksOf P l = l.take P :: chunksOf P (l.drop P) := by
  rw [chunksOf]
  simp [hl, Nat.pos_iff_ne_zero.mp hP]

/-- The number of chunks is the ceiling of length over part size. -/
theorem length_chunksOf {P : Nat} (hP : 0 < P) (l : List Nat) :
    (chunksOf P l).length = (l.length + P - 1) / P := by
  induction l using chunksOf.induct P with
  | case1 l h =>
    rcases h with h | h
    · rw [List.isEmpty_iff] at h
      subst h
      simp [chunksOf_nil]
      exact (Nat.div_eq_of_lt (by omega)).symm
    · omega
  | case2 l h ih =>
    push_neg at h
    obtain ⟨hl0, hP0⟩ := h
    have hl : l ≠ [] := by simpa using hl0
    rw [chunksOf_cons hl hP]
    simp only [List.length_cons, List.length_drop] at ih ⊢
    rw [ih]
    have hlen : 1 ≤ l.length := by
      rcases l with _ | ⟨a, t⟩
      · simp at hl
      · simp
    rcases Nat.lt_or_ge P l.length with hPl | hPl
    · have h1 : l.length - P + P - 1 = l.length - 1 := by omega
      rw [h1]
      have h2 : l.length + P - 1 = (l.length - 1) + P := by omega
      rw [h2, Nat.add_div_right _ hP]
    · have h1 : l.length - P = 0 := by omega
      rw [h1]
      have h2 : (0 + P - 1) / P = 0 := by
        apply Nat.div_eq_of_lt
        omega
      rw [h2]
      have := Nat.div_eq_of_lt_le (by omega : 1 * P ≤ l.length + P - 1)
        (by omega : l.length + P - 1 < (1+1) * P)
      omega

/-- Concatenating the chunks in order reconstructs the payload. -/
theorem flatten_chunksOf {P : Nat} (hP : 0 < P) (l : List Nat) :
    (chunksOf P l).flatten = l := by
  induction l using chunksOf.induct P with
  | case1 l h =>
    rcases h with h | h
    · rw [List.isEmpty_iff] at h; subst h; simp [chunksOf_nil]
    · omega
  | case2 l h ih =>
    push_neg at h
    obtain ⟨hl0, _⟩ := h
    have hl : l ≠ [] := by simpa using hl0
    rw [chunksOf_cons hl hP]
    simp [ih]

/-- Only the empty payload has no chunks. -/
theorem chunksOf_eq_nil_iff {P : Nat} (hP : 0 < P) {l : List Nat} :
    chunksOf P l = [] ↔ l = [] := by
  constructor
  · intro h
    by_contra hl
    rw [chunksOf_cons hl hP] at h
    exact List.cons_ne_nil _ _ h
  · intro h; subst h; exact chunksOf_nil P

/-- Taking `min b remaining` bytes from the tail equals taking `b` bytes. -/
theorem take_min_sub (l : List Nat) (a b : Nat) :
    (l.drop a).take (min b (l.length - a)) = (l.drop a).take b := by
  have hlen : (l.drop a).length = l.length - a := List.length_drop a l
  rcases Nat.le_total b (l.length - a) with h | h
  · rw [min_eq_left h]
  · rw [min_eq_right h]
    rw [List.take_of_length_le (by omega), List.take_of_length_le (by omega)]

/-- Advancing the offset by `min b remaining` equals advancing it by `b`. -/
theorem drop_add_min (l : List Nat) (a b : Nat) :
    l.drop (a + min b (l.length - a)) = l.drop (a + b) := by
  rcases Nat.le_total (a + b) l.length with h | h
  · have hm : min b (l.length - a) = b := by omega
    rw [hm]
  · rw [List.drop_eq_nil_of_le (by omega), List.drop_eq_nil_of_le (by omega)]

/-- With part size 0 the loop guard fails at once (the source never does this: `PART_SIZE` is positive). -/
theorem multipartLoop_zero (client : S3Client) (b k u path : String) (st : FileState)
    (fileSz offset pn : Nat) (parts : List (String × Nat)) :
    multipartLoop client b k u path 0 st fileSz offset pn parts = ([], .ok parts) := by
  rw [multipartLoop]
  simp

/-- When every read and every part upload succeeds, the part loop reads the chunk sequence of the file tail and accumulates one `(etag, number)` pair per chunk with consecutive part numbers. -/
theorem multipartLoop_ok (client : S3Client) (bucket key uploadId path : String)
    (partSize : Nat) (content : List Nat) (hP : 0 < partSize)
    (hparts : ∀ i, client.part_ok i = true)
    (offset pn : Nat) (parts : List (String × Nat)) (hoff : offset ≤ content.length) :
    multipartLoop client bucket key uploadId path partSize (.readable content)
        content.length offset pn parts
      = (expectedLoopEvents client bucket key uploadId path pn
           (chunksOf partSize (content.drop offset)),
         .ok (parts ++ expectedTags client pn
           (chunksOf partSize (content.drop offset)).length)) := by
  revert hoff
  induction offset, pn, parts using
      multipartLoop.induct client bucket key uploadId path partSize
        (.readable content) content.length with
  | case1 offset pn parts hcond csize e hread =>
    intro hoff
    simp [readChunk] at hread
  | case2 offset pn parts hcond csize chunk hread hok ih =>
    intro hoff
    rw [multipartLoop, dif_pos hcond]
    simp only [readChunk]
    rw [hok, if_pos rfl]
    have hne : content.drop offset ≠ [] := by
      intro hnil
      rw [List.drop_eq_nil_iff] at hnil
      omega
    rw [ih (by omega)]
    rw [chunksOf_cons hne hP]
    rw [take_min_sub, drop_add_min]
    have hdd : (content.drop offset).drop partSize = content.drop (offset + partSize) := by
      rw [List.drop_drop]
    rw [hdd]
    simp [expectedLoopEvents, expectedTags, List.length_cons, List.append_assoc]
  | case3 offset pn parts hcond csize chunk hread hok =>
    exact absurd (hparts pn) hok
  | case4 offset pn parts hcond =>
    intro hoff
    have hoffL : offset = content.length := by omega
    subst hoffL
    rw [multipartLoop, dif_neg hcond]
    simp [List.drop_length, chunksOf_nil, expectedLoopEvents, expectedTags]

/-- Chunk sizes: every chunk but the last has exactly `partSize` bytes; the last chunk holds the remainder. -/
theorem chunksOf_getElemQ {P : Nat} (hP : 0 < P) (l : List Nat) :
    ∀ i c, (chunksOf P l)[i]? = some c →
      (i + 1 < (chunksOf P l).length → c.length = P) ∧
      (i + 1 = (chunksOf P l).length → c.length = l.length - P * i) := by
  induction l using chunksOf.induct P with
  | case1 l h =>
    rcases h with h | h
    · rw [List.isEmpty_iff] at h
      subst h
      intro i c hc
      rw [chunksOf_nil] at hc
      simp at hc
    · omega
  | case2 l h ih =>
    push_neg at h
    obtain ⟨hl0, _⟩ := h
    have hl : l ≠ [] := by simpa using hl0
    intro i c hc
    rw [chunksOf_cons hl hP] at hc ⊢
    cases i with
    | zero =>
      simp only [List.getElem?_cons_zero, Option.some.injEq] at hc
      subst hc
      constructor
      · intro hlt
        simp only [List.length_cons] at hlt
        have hrest : chunksOf P (l.drop P) ≠ [] := by
          intro hnil
          rw [hnil] at hlt
          simp at hlt
        rw [ne_eq, chunksOf_eq_nil_iff hP, List.drop_eq_nil_iff] at hrest
        push_neg at hrest
        simp only [List.length_take]
        omega
      · intro heq
        simp only [List.length_cons] at heq
        have hrest : chunksOf P (l.drop P) = [] := by
          rcases hrestl : chunksOf P (l.drop P) with _ | ⟨a, t⟩
          · rfl
          · rw [hrestl] at heq
            simp at heq
        rw [chunksOf_eq_nil_iff hP, List.drop_eq_nil_iff] at hrest
        simp only [List.length_take]
        omega
    | succ j =>
      simp only [List.getElem?_cons_succ] at hc
      obtain ⟨h1, h2⟩ := ih j c hc
      constructor
      · intro hlt
        simp only [List.length_cons] at hlt
        exact h1 (by omega)
      · intro heq
        simp only [List.length_cons] at heq
        have := h2 (by omega)
        rw [this, List.length_drop]
        have hmul : P * (j + 1) = P * j + P := by ring
        omega

/-- The parts uploaded by the loop pair consecutive part numbers with the chunks. -/
theorem partsOf_expectedLoopEvents (client : S3Client) (bucket key uploadId path : String) :
    ∀ (pn : Nat) (cs : List (List Nat)),
      partsOf (expectedLoopEvents client bucket key uploadId path pn cs)
        = (List.range' pn cs.length).zip cs := by
  intro pn cs
  induction cs generalizing pn with
  | nil => simp [partsOf, expectedLoopEvents]
  | cons c cs ih =>
    simp [partsOf, expectedLoopEvents, partEventOf, List.range'] at ih ⊢
    exact ih (pn + 1)

/-- The accumulated tag list pairs each part number, in ascending order, with its etag. -/
theorem expectedTags_eq_map (client : S3Client) :
    ∀ (count pn : Nat), expectedTags client pn count
      = (List.range' pn count).map (fun i => (client.etag i, i)) := by
  intro count
  induction count with
  | zero => intro pn; simp [expectedTags]
  | succ m ih => intro pn; simp [expectedTags, List.range', ih (pn + 1)]

/-- Trace of a fully successful multipart upload: create, stat, the part loop, then the completion call carrying the accumulated tag list. -/
theorem upload_large_file_multipartP_ok (partSize : Nat) (client : S3Client)
    (bucket_name bucket_key path : String) (content : List Nat)
    (hP : 0 < partSize)
    (hcreate : client.create_ok bucket_key = true)
    (hcomplete : client.complete_ok = true)
    (hparts : ∀ i, client.part_ok i = true) :
    upload_large_file_multipartP partSize client bucket_name bucket_key path
        (.readable content) =
      (Event.s3CreateMultipart bucket_name bucket_key :: Event.fsStat path
         :: (expectedLoopEvents client bucket_name bucket_key client.upload_id path 1
               (chunksOf partSize content)
             ++ [Event.s3CompleteMultipart bucket_name bucket_key client.upload_id
                  (expectedTags client 1 (chunksOf partSize content).length)]),
       .ok ()) := by
  unfold upload_large_file_multipartP
  rw [hcreate, if_pos rfl]
  have hloop := multipartLoop_ok client bucket_name bucket_key client.upload_id path
    partSize content hP hparts 0 1 [] (by omega)
  simp only [fileSize]
  rw [hloop]
  simp [hcomplete]

/-- Part projection of the loop events followed by a part-free suffix. -/
theorem partsOf_expected_full (client : S3Client) (b k u path : String)
    (pn : Nat) (cs : List (List Nat)) (rest : List Event)
    (hrest : partsOf rest = []) :
    partsOf (expectedLoopEvents client b k u path pn cs ++ rest)
      = (List.range' pn cs.length).zip cs := by
  have h1 : partsOf (expectedLoopEvents client b k u path pn cs ++ rest)
      = partsOf (expectedLoopEvents client b k u path pn cs) ++ partsOf rest := by
    simp [partsOf]
  rw [h1, hrest, List.append_nil, partsOf_expectedLoopEvents]

/-- The loop events contain no completion call. -/
theorem completePartsOf_expected (client : S3Client) (b k u path : String) :
    ∀ (pn : Nat) (cs : List (List Nat)) (rest : List Event),
      completePartsOf (expectedLoopEvents client b k u path pn cs ++ rest)
        = completePartsOf rest := by
  intro pn cs
  induction cs generalizing pn with
  | nil => intro rest; simp [expectedLoopEvents]
  | cons c cs ih =>
    intro rest
    simp only [expectedLoopEvents, List.cons_append, completePartsOf, List.findSome?_cons]
    exact ih (pn + 1) rest

/-- A chunk read fails only with the read-failure error. -/
theorem readChunk_error {st : FileState} {offset size : Nat} {e : String}
    (h : readChunk st offset size = .error e) : e = "chunk read failed" := by
  rcases st with content | sz
  · simp [readChunk] at h
  · simp [readChunk] at h
    exact h.symm

/-- The part loop itself never issues an abort call. -/
theorem multipartLoop_no_abort (client : S3Client) (b k u path : String)
    (partSize : Nat) (st : FileState) (fileSz : Nat) (offset pn : Nat)
    (parts : List (String × Nat)) :
    (multipartLoop client b k u path partSize st fileSz offset pn parts).1.filter
      isAbortMultipart = [] := by
  induction offset, pn, parts using
      multipartLoop.induct client b k u path partSize st fileSz with
  | case1 offset pn parts hcond csize e hread =>
    have hread2 : readChunk st offset (partSize ⊓ (fileSz - offset)) = .error e := hread
    rw [multipartLoop, dif_pos hcond]
    dsimp only
    rw [hread2]
    simp [isAbortMultipart]
  | case2 offset pn parts hcond csize chunk hread hok ih =>
    have hread2 : readChunk st offset (partSize ⊓ (fileSz - offset)) = .ok chunk := hread
    rw [multipartLoop, dif_pos hcond]
    dsimp only
    rw [hread2]
    simp only [hok, if_pos rfl, List.filter_cons]
    simp [isAbortMultipart, ih]
  | case3 offset pn parts hcond csize chunk hread hok =>
    have hread2 : readChunk st offset (partSize ⊓ (fileSz - offset)) = .ok chunk := hread
    rw [multipartLoop, dif_pos hcond]
    dsimp only
    rw [hread2]
    simp only [Bool.not_eq_true] at hok
    simp [hok, isAbortMultipart]
  | case4 offset pn parts hcond =>
    rw [multipartLoop, dif_neg hcond]
    simp

/-- The part loop fails only with a read error or a part-upload error. -/
theorem multipartLoop_error (client : S3Client) (b k u path : String)
    (partSize : Nat) (st : FileState) (fileSz : Nat) (offset pn : Nat)
    (parts : List (String × Nat)) (e : String)
    (herr : (multipartLoop client b k u path partSize st fileSz offset pn parts).2
      = .error e) :
    e = "chunk read failed" ∨ e = partErrMsg := by
  induction offset, pn, parts using
      multipartLoop.induct client b k u path partSize st fileSz with
  | case1 offset pn parts hcond csize e2 hread =>
    have hread2 : readChunk st offset (partSize ⊓ (fileSz - offset)) = .error e2 := hread
    rw [multipartLoop, dif_pos hcond] at herr
    dsimp only at herr
    rw [hread2] at herr
    simp at herr
    subst herr
    exact Or.inl (readChunk_error hread2)
  | case2 offset pn parts hcond csize chunk hread hok ih =>
    have hread2 : readChunk st offset (partSize ⊓ (fileSz - offset)) = .ok chunk := hread
    rw [multipartLoop, dif_pos hcond] at herr
    dsimp only at herr
    rw [hread2] at herr
    simp only [hok, if_pos rfl] at herr
    exact ih herr
  | case3 offset pn parts hcond csize chunk hread hok =>
    have hread2 : readChunk st offset (partSize ⊓ (fileSz - offset)) = .ok chunk := hread
    rw [multipartLoop, dif_pos hcond] at herr
    dsimp only at herr
    rw [hread2] at herr
    simp only [Bool.not_eq_true] at hok
    simp [hok] at herr
    exact Or.inr herr.symm
  | case4 offset pn parts hcond =>
    rw [multipartLoop, dif_neg hcond] at herr
    simp at herr

/-- In mock mode the per-entry trace is a single COMPLETED delivery: no filesystem access, no S3 call (uploader.py lines 223-228). -/
theorem upload_file_mock (job : Job) (entry : ManifestEntry)
    (file_path bucket_name bucket_key : String) (client : S3Client) (fs : FS)
    (h : job.mock = true) :
    upload_file_to_s3 job entry file_path bucket_name bucket_key client fs =
      [Event.entryLog { job_id := job.id, entry_id := entry.id,
                        status := JobEntryStatus.COMPLETED,
                        message := some ("Uploaded " ++ file_path ++ " (mock)") }] := by
  unfold upload_file_to_s3
  rw [h, if_pos rfl]

/-- A mock batch run delivers one synthetic COMPLETED event per selected entry, then the job-level COMPLETED update. -/
theorem upload_to_s3_in_batch_mock (job : Job) (m : Manifest) (es : List ManifestEntry)
    (bucket_name : String) (client : S3Client) (fs : FS)
    (hm : job.manifest = some m) (he : m.entries = some es) (hne : es ≠ [])
    (hmock : job.mock = true) :
    upload_to_s3_in_batch job bucket_name client fs =
      (selectedEntries job.count es).map (fun e =>
        Event.entryLog { job_id := job.id, entry_id := e.id,
                         status := JobEntryStatus.COMPLETED,
                         message := some ("Uploaded "
                           ++ opsFilePath m.ops_root_dir e.ops_key ++ " (mock)") })
      ++ [Event.jobUpdate JobStatus.COMPLETED (some "Job completed")] := by
  rw [upload_to_s3_in_batch_eq job m es bucket_name client fs hm he hne]
  congr 1
  induction selectedEntries job.count es with
  | nil => simp
  | cons e rest ih =>
    simp only [List.map_cons, List.flatten_cons, ih]
    rw [upload_file_mock job e _ bucket_name e.bucket_key client fs hmock]
    simp

/-- Entry deliveries of a trace of pure entry events followed by a suffix. -/
theorem entryLogs_map_entryLog (f : ManifestEntry → JobEntryLogRequest)
    (l : List ManifestEntry) (rest : List Event) :
    entryLogs ((l.map (fun e => Event.entryLog (f e))) ++ rest)
      = l.map f ++ entryLogs rest := by
  induction l with
  | nil => simp
  | cons e t ih => simp [entryLogs, entryLogOf] at ih ⊢; exact ih

/-- A filter ignoring entry events sees only the trace suffix. -/
theorem filter_map_entryLog (p : Event → Bool)
    (hp : ∀ l, p (Event.entryLog l) = false)
    (f : ManifestEntry → JobEntryLogRequest) (l : List ManifestEntry) (rest : List Event) :
    ((l.map (fun e => Event.entryLog (f e))) ++ rest).filter p = rest.filter p := by
  induction l with
  | nil => simp
  | cons e t ih => simp [List.filter_cons, hp, ih]

/-- The producer loop enqueues exactly the entry list, in order. -/
theorem enqueueAll_eq (entries : List ManifestEntry) : enqueueAll entries = entries := by
  have h : ∀ (l acc : List ManifestEntry), l.foldl (fun q e => q ++ [e]) acc = acc ++ l := by
    intro l
    induction l with
    | nil => intro acc; simp
    | cons e t ih => intro acc; simp [List.foldl_cons, ih]
  simpa [enqueueAll] using h entries []

/-! ## Claim theorems -/

/-- C1: every batch run over a nonempty selected entry list delivers exactly one terminal outcome per entry to the progress handler, in order, each with status COMPLETED or ERROR; no entry is dropped and none is delivered twice. -/
theorem batch_one_terminal_outcome_per_entry (job : Job) (m : Manifest)
    (es : List ManifestEntry) (bucket_name : String) (client : S3Client) (fs : FS)
    (hm : job.manifest = some m) (he : m.entries = some es) (hne : es ≠ []) :
    (entryLogs (upload_to_s3_in_batch job bucket_name client fs)).map
        (fun l => l.entry_id)
      = (selectedEntries job.count es).map (fun e => e.id) ∧
    ∀ l ∈ entryLogs (upload_to_s3_in_batch job bucket_name client fs),
      l.status = JobEntryStatus.COMPLETED ∨ l.status = JobEntryStatus.ERROR := by
  rw [upload_to_s3_in_batch_eq job m es bucket_name client fs hm he hne]
  have h := entryLogs_per_entry_map job bucket_name m.ops_root_dir client fs
    (selectedEntries job.count es)
  rw [entryLogs_append]
  have hjl : entryLogs [Event.jobUpdate JobStatus.COMPLETED (some "Job completed")] = [] := by
    simp [entryLogs, entryLogOf]
  rw [hjl, List.append_nil]
  refine ⟨h.1, ?_⟩
  intro l hl
  have hterm := (h.2 l hl).2.1
  rcases hstat : l.status
  · rw [hstat] at hterm; simp [isTerminal] at hterm
  · exact Or.inl rfl
  · exact Or.inr rfl

/-- Witness for C1 at a concrete three-entry job. -/
theorem batch_one_terminal_outcome_per_entry_witness :
    (wJob.manifest = some wManifest ∧ wManifest.entries = some [wEntryA, wEntryB, wEntryC]
      ∧ [wEntryA, wEntryB, wEntryC] ≠ []) ∧
    (entryLogs (upload_to_s3_in_batch wJob "B" okClient wFS)).map (fun l => l.entry_id)
      = (selectedEntries wJob.count [wEntryA, wEntryB, wEntryC]).map (fun e => e.id) ∧
    ∀ l ∈ entryLogs (upload_to_s3_in_batch wJob "B" okClient wFS),
      l.status = JobEntryStatus.COMPLETED ∨ l.status = JobEntryStatus.ERROR :=
  ⟨⟨rfl, rfl, by decide⟩,
   batch_one_terminal_outcome_per_entry wJob wManifest [wEntryA, wEntryB, wEntryC] "B" okClient wFS rfl rfl (by decide)⟩

/-- C2 counterexample: a readable file whose size equals the multipart threshold is uploaded with a single `put_object` call and no `create_multipart_upload` call, because `MULTIPART_ENABLED` is `False` (uploader.py line 51). -/
theorem threshold_file_uses_single_put_counterexample :
    MULTIPART_THRESHOLD ≤ bigContent.length ∧
    (upload_file_to_s3 wJob wEntryA "/r/a.fits" "B" "k/a.fits" okClient bigFS).filter
        isCreateMultipart = [] ∧
    ((upload_file_to_s3 wJob wEntryA "/r/a.fits" "B" "k/a.fits" okClient bigFS).filter
        isPut).length = 1 := by
  refine ⟨by simp [bigContent], ?_, ?_⟩ <;>
  · unfold upload_file_to_s3
    simp [wJob, bigFS, MULTIPART_ENABLED, okClient, isCreateMultipart, isPut]

/-- C2 (amended): since `MULTIPART_ENABLED = False`, every entry that reaches the network stage with a readable payload is uploaded by exactly one `put_object` call regardless of its size; the multipart path is never taken. -/
theorem multipart_disabled_every_upload_single_put (job : Job) (entry : ManifestEntry)
    (file_path bucket_name bucket_key : String) (client : S3Client) (fs : FS)
    (body : List Nat)
    (hmock : job.mock = false) (hfs : fs file_path = some (.readable body)) :
    ((upload_file_to_s3 job entry file_path bucket_name bucket_key client fs).filter
        isPut).length = 1 ∧
    (upload_file_to_s3 job entry file_path bucket_name bucket_key client fs).filter
        isCreateMultipart = [] ∧
    partsOf (upload_file_to_s3 job entry file_path bucket_name bucket_key client fs) = [] := by
  unfold upload_file_to_s3
  rw [hmock]
  rcases hput : client.put_ok bucket_key <;>
    simp [hfs, hput, MULTIPART_ENABLED, isPut, isCreateMultipart, partsOf, partEventOf]

/-- Witness for the amended C2 at a concrete small file. -/
theorem multipart_disabled_every_upload_single_put_witness :
    (wJob.mock = false ∧ wFS "/r/a.fits" = some (.readable [9, 9])) ∧
    ((upload_file_to_s3 wJob wEntryA "/r/a.fits" "B" "k/a.fits" okClient wFS).filter
        isPut).length = 1 ∧
    (upload_file_to_s3 wJob wEntryA "/r/a.fits" "B" "k/a.fits" okClient wFS).filter
        isCreateMultipart = [] ∧
    partsOf (upload_file_to_s3 wJob wEntryA "/r/a.fits" "B" "k/a.fits" okClient wFS) = [] :=
  ⟨⟨rfl, by decide⟩,
   multipart_disabled_every_upload_single_put wJob wEntryA "/r/a.fits" "B" "k/a.fits" okClient wFS [9, 9] rfl (by decide)⟩

/-- C3: a multipart upload of a file of `F` bytes with part size `P` (parametrised; the source fixes `P = PART_SIZE`) on an always-succeeding client uploads exactly ceil(F/P) parts with consecutive part numbers starting at 1; every part except the one numbered ceil(F/P) has `P` bytes, that part has `F - P*(ceil(F/P)-1)` bytes, the completion call lists the accumulated tag pairs in ascending part-number order, and the concatenation of the part bodies in that order is the original byte sequence. -/
theorem multipart_parts_sequential_and_reassemble (partSize : Nat) (client : S3Client)
    (bucket_name bucket_key path : String) (content : List Nat)
    (hP : 0 < partSize)
    (hcreate : client.create_ok bucket_key = true)
    (hcomplete : client.complete_ok = true)
    (hparts : ∀ i, client.part_ok i = true) :
    (upload_large_file_multipartP partSize client bucket_name bucket_key path
        (.readable content)).2 = .ok () ∧
    (partsOf (upload_large_file_multipartP partSize client bucket_name bucket_key path
        (.readable content)).1).map Prod.fst
      = List.range' 1 ((content.length + partSize - 1) / partSize) ∧
    (∀ q ∈ partsOf (upload_large_file_multipartP partSize client bucket_name bucket_key path
        (.readable content)).1,
      (q.1 ≠ (content.length + partSize - 1) / partSize → q.2.length = partSize) ∧
      (q.1 = (content.length + partSize - 1) / partSize →
        q.2.length = content.length
          - partSize * ((content.length + partSize - 1) / partSize - 1))) ∧
    ((partsOf (upload_large_file_multipartP partSize client bucket_name bucket_key path
        (.readable content)).1).map Prod.snd).flatten = content ∧
    completePartsOf (upload_large_file_multipartP partSize client bucket_name bucket_key path
        (.readable content)).1
      = some ((List.range' 1 ((content.length + partSize - 1) / partSize)).map
          (fun i => (client.etag i, i))) := by
  have hshape := upload_large_file_multipartP_ok partSize client bucket_name bucket_key path
    content hP hcreate hcomplete hparts
  have hn : (chunksOf partSize content).length = (content.length + partSize - 1) / partSize :=
    length_chunksOf hP content
  have h1 : (upload_large_file_multipartP partSize client bucket_name bucket_key path
      (.readable content)).1
      = Event.s3CreateMultipart bucket_name bucket_key :: Event.fsStat path
         :: (expectedLoopEvents client bucket_name bucket_key client.upload_id path 1
               (chunksOf partSize content)
             ++ [Event.s3CompleteMultipart bucket_name bucket_key client.upload_id
                  (expectedTags client 1 (chunksOf partSize content).length)]) := by
    rw [hshape]
  have h2 : (upload_large_file_multipartP partSize client bucket_name bucket_key path
      (.readable content)).2 = .ok () := by
    rw [hshape]
  have hrest : partsOf [Event.s3CompleteMultipart bucket_name bucket_key client.upload_id
      (expectedTags client 1 (chunksOf partSize content).length)] = [] := by
    simp [partsOf, partEventOf]
  have hmid := partsOf_expected_full client bucket_name bucket_key client.upload_id path 1
    (chunksOf partSize content) _ hrest
  have hps : partsOf (upload_large_file_multipartP partSize client bucket_name bucket_key path
      (.readable content)).1
      = (List.range' 1 (chunksOf partSize content).length).zip (chunksOf partSize content) := by
    rw [h1]
    simp only [partsOf, List.filterMap_cons, partEventOf] at hmid ⊢
    exact hmid
  have hlenzip : ((List.range' 1 (chunksOf partSize content).length).zip
      (chunksOf partSize content)).length = (chunksOf partSize content).length := by
    simp [List.length_zip, List.length_range']
  refine ⟨h2, ?_, ?_, ?_, ?_⟩
  · rw [hps, List.map_fst_zip _ _ (by simp [List.length_range']), hn]
  · intro q hq
    rw [hps] at hq
    obtain ⟨i, hi, hqi⟩ := List.mem_iff_getElem.mp hq
    have hibound : i < (chunksOf partSize content).length := by
      rw [hlenzip] at hi
      exact hi
    have hi1 : i < (List.range' 1 (chunksOf partSize content).length).length := by
      simp [List.length_range']
      exact hibound
    have hq1 : q = ((List.range' 1 (chunksOf partSize content).length)[i],
        (chunksOf partSize content)[i]) := by
      rw [← hqi]
      exact List.getElem_zip ..
    have hrange : (List.range' 1 (chunksOf partSize content).length)[i] = 1 + i :=
      List.getElem_range'_1 i hi1
    have hget := chunksOf_getElemQ hP content i ((chunksOf partSize content)[i])
      (List.getElem?_eq_getElem hibound)
    constructor
    · intro hne
      have : i + 1 < (chunksOf partSize content).length := by
        rcases Nat.lt_or_ge (i + 1) (chunksOf partSize content).length with h | h
        · exact h
        · exfalso
          have : i + 1 = (chunksOf partSize content).length := by omega
          apply hne
          rw [hq1, hrange, ← hn]
          omega
      rw [hq1]
      simpa using hget.1 this
    · intro heq
      have hieq : i + 1 = (chunksOf partSize content).length := by
        rw [hq1, hrange, ← hn] at heq
        omega
      have := hget.2 hieq
      rw [hq1]
      simp only
      have h3 : (chunksOf partSize content).length - 1 = i := by omega
      rw [this, ← hn, h3]
  · rw [hps, List.map_snd_zip _ _ (by simp [List.length_range']), flatten_chunksOf hP]
  · rw [h1]
    simp only [completePartsOf, List.findSome?_cons]
    rw [show (List.findSome? (fun ev => match ev with
        | Event.s3CompleteMultipart _ _ _ parts => some parts
        | _ => none) (expectedLoopEvents client bucket_name bucket_key client.upload_id path 1
          (chunksOf partSize content) ++ [Event.s3CompleteMultipart bucket_name bucket_key
            client.upload_id (expectedTags client 1 (chunksOf partSize content).length)]))
      = completePartsOf (expectedLoopEvents client bucket_name bucket_key client.upload_id path 1
          (chunksOf partSize content) ++ [Event.s3CompleteMultipart bucket_name bucket_key
            client.upload_id (expectedTags client 1 (chunksOf partSize content).length)])
      from rfl]
    rw [completePartsOf_expected]
    simp [completePartsOf, expectedTags_eq_map, hn]

/-- Witness for C3: part size 2, a five-byte file (3 parts). -/
theorem multipart_parts_sequential_and_reassemble_witness :
    (0 < 2 ∧ okClient.create_ok "K" = true ∧ okClient.complete_ok = true
      ∧ ∀ i, okClient.part_ok i = true) ∧
    ((upload_large_file_multipartP 2 okClient "B" "K" "f"
        (.readable [1, 2, 3, 4, 5])).2 = .ok () ∧
    (partsOf (upload_large_file_multipartP 2 okClient "B" "K" "f"
        (.readable [1, 2, 3, 4, 5])).1).map Prod.fst
      = List.range' 1 (([1, 2, 3, 4, 5].length + 2 - 1) / 2) ∧
    (∀ q ∈ partsOf (upload_large_file_multipartP 2 okClient "B" "K" "f"
        (.readable [1, 2, 3, 4, 5])).1,
      (q.1 ≠ ([1, 2, 3, 4, 5].length + 2 - 1) / 2 → q.2.length = 2) ∧
      (q.1 = ([1, 2, 3, 4, 5].length + 2 - 1) / 2 →
        q.2.length = [1, 2, 3, 4, 5].length
          - 2 * (([1, 2, 3, 4, 5].length + 2 - 1) / 2 - 1))) ∧
    ((partsOf (upload_large_file_multipartP 2 okClient "B" "K" "f"
        (.readable [1, 2, 3, 4, 5])).1).map Prod.snd).flatten = [1, 2, 3, 4, 5] ∧
    completePartsOf (upload_large_file_multipartP 2 okClient "B" "K" "f"
        (.readable [1, 2, 3, 4, 5])).1
      = some ((List.range' 1 (([1, 2, 3, 4, 5].length + 2 - 1) / 2)).map
          (fun i => (okClient.etag i, i)))) :=
  ⟨⟨by decide, rfl, rfl, fun i => rfl⟩,
   multipart_parts_sequential_and_reassemble 2 okClient "B" "K" "f" [1, 2, 3, 4, 5] (by decide) rfl rfl (fun i => rfl)⟩

/-- C4 counterexample: the transfer queue is created with `asyncio.Queue()` (maxsize 0, unbounded); enqueuing 265 entries leaves 265 buffered items, more than the configured `BUFFER_QUEUE_SIZE` of 200 at the default settings, and a put into this queue never blocks. -/
theorem transfer_queue_exceeds_capacity_counterexample :
    transferQueueMaxsize = 0 ∧
    defaultBufferQueueSize = 200 ∧
    (enqueueAll manyEntries).length = 265 ∧
    defaultBufferQueueSize < (enqueueAll manyEntries).length ∧
    queuePutBlocks transferQueueMaxsize defaultBufferQueueSize = false := by
  have hlen : (enqueueAll manyEntries).length = 265 := by
    rw [enqueueAll_eq]
    simp [manyEntries]
  refine ⟨rfl, by decide, hlen, ?_, by decide⟩
  rw [hlen]
  decide

/-- C4 (amended): the queue is unbounded; the producer loop buffers the entire entry list (N items for N entries) before any worker starts, and producers never block; `BUFFER_QUEUE_SIZE` is computed in config.py but never used by the uploader. -/
theorem transfer_queue_unbounded_never_blocks (entries : List ManifestEntry) :
    enqueueAll entries = entries ∧
    (enqueueAll entries).length = entries.length ∧
    ∀ qsize, queuePutBlocks transferQueueMaxsize qsize = false := by
  refine ⟨enqueueAll_eq entries, by rw [enqueueAll_eq], ?_⟩
  intro qsize
  rfl

/-- C5: an entry whose file is missing or unreadable causes no object-store call; it yields a single ERROR outcome for that entry, and the batch still yields one outcome per selected entry. -/
theorem read_error_no_network_call_error_outcome (job : Job) (entry : ManifestEntry)
    (file_path bucket_name bucket_key : String) (client : S3Client) (fs : FS)
    (hmock : job.mock = false)
    (hfail : fs file_path = none ∨ ∃ sz, fs file_path = some (.unreadable sz)) :
    (upload_file_to_s3 job entry file_path bucket_name bucket_key client fs).filter
      isS3Call = [] ∧
    (∃ msg, entryLogs (upload_file_to_s3 job entry file_path bucket_name bucket_key client fs)
      = [{ job_id := job.id, entry_id := entry.id, status := JobEntryStatus.ERROR,
           message := some msg }]) ∧
    (∀ m es, job.manifest = some m → m.entries = some es → es ≠ [] →
      (entryLogs (upload_to_s3_in_batch job bucket_name client fs)).length
        = (selectedEntries job.count es).length) := by
  refine ⟨?_, ?_, ?_⟩
  · unfold upload_file_to_s3
    rw [hmock]
    rcases hfail with h | ⟨sz, h⟩ <;>
      simp [h, MULTIPART_ENABLED, isS3Call]
  · unfold upload_file_to_s3
    rw [hmock]
    rcases hfail with h | ⟨sz, h⟩
    · exact ⟨"Error uploading file " ++ file_path ++ ": " ++ fileNotFoundMsg file_path,
        by simp [h, entryLogs, entryLogOf]⟩
    · exact ⟨"Error uploading file " ++ file_path ++ ": " ++ readErrMsg file_path,
        by simp [h, MULTIPART_ENABLED, entryLogs, entryLogOf]⟩
  · intro m es hm he hne
    rw [upload_to_s3_in_batch_eq job m es bucket_name client fs hm he hne]
    have h := entryLogs_per_entry_map job bucket_name m.ops_root_dir client fs
      (selectedEntries job.count es)
    rw [entryLogs_append]
    have hjl : entryLogs [Event.jobUpdate JobStatus.COMPLETED (some "Job completed")] = [] := by
      simp [entryLogs, entryLogOf]
    rw [hjl, List.append_nil]
    have := congrArg List.length h.1
    simpa using this

/-- Witness for C5 at the concrete missing file `b.fits`. -/
theorem read_error_no_network_call_error_outcome_witness :
    (wJob.mock = false ∧ wFS "/r/b.fits" = none) ∧
    (upload_file_to_s3 wJob wEntryB "/r/b.fits" "B" "k/b.fits" okClient wFS).filter
      isS3Call = [] ∧
    (∃ msg, entryLogs (upload_file_to_s3 wJob wEntryB "/r/b.fits" "B" "k/b.fits" okClient wFS)
      = [{ job_id := wJob.id, entry_id := wEntryB.id, status := JobEntryStatus.ERROR,
           message := some msg }]) ∧
    (∀ m es, wJob.manifest = some m → m.entries = some es → es ≠ [] →
      (entryLogs (upload_to_s3_in_batch wJob "B" okClient wFS)).length
        = (selectedEntries wJob.count es).length) :=
  ⟨⟨rfl, by decide⟩,
   read_error_no_network_call_error_outcome wJob wEntryB "/r/b.fits" "B" "k/b.fits" okClient wFS rfl (Or.inl (by decide))⟩

/-- C6: a nonempty batch run always ends with the job-level COMPLETED update; every per-entry ERROR outcome carries a message of the form "Error uploading file <path>: <error>", and every selected entry still gets its own outcome. -/
theorem job_completed_despite_entry_errors (job : Job) (m : Manifest)
    (es : List ManifestEntry) (bucket_name : String) (client : S3Client) (fs : FS)
    (hm : job.manifest = some m) (he : m.entries = some es) (hne : es ≠ []) :
    (∃ pre, upload_to_s3_in_batch job bucket_name client fs
        = pre ++ [Event.jobUpdate JobStatus.COMPLETED (some "Job completed")]) ∧
    (∀ l ∈ entryLogs (upload_to_s3_in_batch job bucket_name client fs),
      l.status = JobEntryStatus.ERROR →
        ∃ p e2, l.message = some ("Error uploading file " ++ p ++ ": " ++ e2)) ∧
    (entryLogs (upload_to_s3_in_batch job bucket_name client fs)).map
        (fun l => l.entry_id)
      = (selectedEntries job.count es).map (fun e => e.id) := by
  rw [upload_to_s3_in_batch_eq job m es bucket_name client fs hm he hne]
  have h := entryLogs_per_entry_map job bucket_name m.ops_root_dir client fs
    (selectedEntries job.count es)
  rw [entryLogs_append]
  have hjl : entryLogs [Event.jobUpdate JobStatus.COMPLETED (some "Job completed")] = [] := by
    simp [entryLogs, entryLogOf]
  rw [hjl, List.append_nil]
  exact ⟨⟨_, rfl⟩, fun l hl => (h.2 l hl).2.2, h.1⟩

/-- Witness for C6: three entries with one missing source file give outcomes COMPLETED, ERROR, COMPLETED and the job update still fires. -/
theorem job_completed_despite_entry_errors_witness :
    (wJob.manifest = some wManifest ∧ wManifest.entries = some [wEntryA, wEntryB, wEntryC]
      ∧ [wEntryA, wEntryB, wEntryC] ≠ []) ∧
    ((∃ pre, upload_to_s3_in_batch wJob "B" okClient wFS
        = pre ++ [Event.jobUpdate JobStatus.COMPLETED (some "Job completed")]) ∧
    (∀ l ∈ entryLogs (upload_to_s3_in_batch wJob "B" okClient wFS),
      l.status = JobEntryStatus.ERROR →
        ∃ p e2, l.message = some ("Error uploading file " ++ p ++ ": " ++ e2)) ∧
    (entryLogs (upload_to_s3_in_batch wJob "B" okClient wFS)).map (fun l => l.entry_id)
      = (selectedEntries wJob.count [wEntryA, wEntryB, wEntryC]).map (fun e => e.id)) ∧
    (entryLogs (upload_to_s3_in_batch wJob "B" okClient wFS)).map (fun l => l.status)
      = [JobEntryStatus.COMPLETED, JobEntryStatus.ERROR, JobEntryStatus.COMPLETED] :=
  ⟨⟨rfl, rfl, by decide⟩,
   job_completed_despite_entry_errors wJob wManifest [wEntryA, wEntryB, wEntryC] "B" okClient wFS rfl rfl (by decide),
   by decide⟩

/-- C7: once a multipart session is initiated, any later failure issues exactly one `abort_multipart_upload` call, and the reported error is the original read, part-upload or completion error, never the initiation error (the model has no abort-error channel because uploader.py lines 317-320 swallow abort failures). -/
theorem multipart_failure_aborts_exactly_once (client : S3Client) (bucket_name bucket_key path : String)
    (st : FileState) (e : String)
    (hcreate : client.create_ok bucket_key = true)
    (herr : (upload_large_file_multipart client bucket_name bucket_key path st).2
      = .error e) :
    ((upload_large_file_multipart client bucket_name bucket_key path st).1.filter
        isAbortMultipart).length = 1 ∧
    (e = "chunk read failed" ∨ e = partErrMsg ∨ e = completeErrMsg) ∧
    e ≠ createErrMsg := by
  unfold upload_large_file_multipart upload_large_file_multipartP at herr ⊢
  rw [hcreate, if_pos rfl] at herr ⊢
  dsimp only at herr ⊢
  rcases hlr : (multipartLoop client bucket_name bucket_key client.upload_id path PART_SIZE st
      (fileSize st) 0 1 []).2 with e2 | parts
  · rw [hlr] at herr
    dsimp only at herr ⊢
    simp only [Except.error.injEq] at herr
    subst herr
    have hmem := multipartLoop_error client bucket_name bucket_key client.upload_id path
      PART_SIZE st (fileSize st) 0 1 [] e2 hlr
    refine ⟨?_, ?_, ?_⟩
    · simp [List.filter_append, multipartLoop_no_abort, isAbortMultipart]
    · rcases hmem with h | h
      · exact Or.inl h
      · exact Or.inr (Or.inl h)
    · rcases hmem with h | h <;> subst h <;> simp [partErrMsg, createErrMsg]
  · rw [hlr] at herr
    dsimp only at herr ⊢
    rcases hcomp : client.complete_ok with _ | _
    · rw [hcomp] at herr
      simp only [Bool.false_eq_true, if_false] at herr ⊢
      simp only [Except.error.injEq] at herr
      subst herr
      refine ⟨?_, Or.inr (Or.inr rfl), by simp [completeErrMsg, createErrMsg]⟩
      simp [List.filter_append, multipartLoop_no_abort, isAbortMultipart]
    · rw [hcomp] at herr
      simp at herr

/-- One-step evaluation: an unreadable file fails the first chunk read. -/
theorem unreadable_multipart_error_eval :
    (upload_large_file_multipart okClient "B" "K" "f" (.unreadable 5)).2
      = .error "chunk read failed" := by
  unfold upload_large_file_multipart upload_large_file_multipartP
  simp [multipartLoop, okClient, readChunk, fileSize, PART_SIZE]

/-- Witness for C7: an unreadable file after successful initiation. -/
theorem multipart_failure_aborts_exactly_once_witness :
    (okClient.create_ok "K" = true ∧
      (upload_large_file_multipart okClient "B" "K" "f" (.unreadable 5)).2
        = .error "chunk read failed") ∧
    ((upload_large_file_multipart okClient "B" "K" "f" (.unreadable 5)).1.filter
        isAbortMultipart).length = 1 ∧
    ("chunk read failed" = "chunk read failed" ∨ "chunk read failed" = partErrMsg
      ∨ "chunk read failed" = completeErrMsg) ∧
    "chunk read failed" ≠ createErrMsg :=
  ⟨⟨rfl, unreadable_multipart_error_eval⟩,
   multipart_failure_aborts_exactly_once okClient "B" "K" "f" (.unreadable 5) "chunk read failed" rfl unreadable_multipart_error_eval⟩

/-- C8: a mock run over a nonempty selected entry list delivers exactly one COMPLETED outcome per entry and performs no filesystem access and no object-store call. -/
theorem mock_run_completed_outcomes_no_io (job : Job) (m : Manifest)
    (es : List ManifestEntry) (bucket_name : String) (client : S3Client) (fs : FS)
    (hm : job.manifest = some m) (he : m.entries = some es) (hne : es ≠ [])
    (hmock : job.mock = true) :
    (entryLogs (upload_to_s3_in_batch job bucket_name client fs)).map
        (fun l => (l.entry_id, l.status))
      = (selectedEntries job.count es).map (fun e => (e.id, JobEntryStatus.COMPLETED)) ∧
    (upload_to_s3_in_batch job bucket_name client fs).filter isFsAccess = [] ∧
    (upload_to_s3_in_batch job bucket_name client fs).filter isS3Call = [] := by
  rw [upload_to_s3_in_batch_mock job m es bucket_name client fs hm he hne hmock]
  refine ⟨?_, ?_, ?_⟩
  · rw [entryLogs_map_entryLog]
    have hjl : entryLogs [Event.jobUpdate JobStatus.COMPLETED (some "Job completed")] = [] := by
      simp [entryLogs, entryLogOf]
    rw [hjl, List.append_nil, List.map_map]
    rfl
  · rw [filter_map_entryLog isFsAccess (fun _ => rfl)]
    rfl
  · rw [filter_map_entryLog isS3Call (fun _ => rfl)]
    rfl

/-- Witness for C8 at the concrete three-entry job in mock mode. -/
theorem mock_run_completed_outcomes_no_io_witness :
    (wMockJob.manifest = some wManifest
      ∧ wManifest.entries = some [wEntryA, wEntryB, wEntryC]
      ∧ [wEntryA, wEntryB, wEntryC] ≠ [] ∧ wMockJob.mock = true) ∧
    (entryLogs (upload_to_s3_in_batch wMockJob "B" okClient wFS)).map
        (fun l => (l.entry_id, l.status))
      = (selectedEntries wMockJob.count [wEntryA, wEntryB, wEntryC]).map
          (fun e => (e.id, JobEntryStatus.COMPLETED)) ∧
    (upload_to_s3_in_batch wMockJob "B" okClient wFS).filter isFsAccess = [] ∧
    (upload_to_s3_in_batch wMockJob "B" okClient wFS).filter isS3Call = [] :=
  ⟨⟨rfl, rfl, by decide, rfl⟩,
   mock_run_completed_outcomes_no_io wMockJob wManifest [wEntryA, wEntryB, wEntryC] "B" okClient wFS rfl rfl
     (by decide) rfl⟩

/-- C9 counterexample: a concrete run delivers a terminal outcome to the sink with no prior STARTED event for that entry — the STARTED status set at creation (uploader.py line 219) is overwritten before the single delivery. -/
theorem terminal_outcome_without_started_counterexample :
    startedBeforeTerminal (upload_file_to_s3 wMockJob wEntryA "/r/a.fits" "B" "k/a.fits"
      okClient wFS) = false ∧
    (entryLogs (upload_file_to_s3 wMockJob wEntryA "/r/a.fits" "B" "k/a.fits"
      okClient wFS)).length = 1 := by
  exact ⟨by decide, by decide⟩

/-- C9 (amended): the sink receives exactly one event per entry, and that event is never a STARTED event — only terminal statuses are ever delivered. -/
theorem sink_gets_single_terminal_event_never_started (job : Job) (entry : ManifestEntry)
    (file_path bucket_name bucket_key : String) (client : S3Client) (fs : FS) :
    (entryLogs (upload_file_to_s3 job entry file_path bucket_name bucket_key client fs)).length
      = 1 ∧
    ∀ l ∈ entryLogs (upload_file_to_s3 job entry file_path bucket_name bucket_key client fs),
      l.status ≠ JobEntryStatus.STARTED := by
  obtain ⟨l0, hl, _, _, hterm, _⟩ :=
    entryLogs_upload_file job entry file_path bucket_name bucket_key client fs
  rw [hl]
  refine ⟨rfl, ?_⟩
  intro l hml
  simp only [List.mem_singleton] at hml
  subst hml
  intro hs
  rw [hs] at hterm
  simp [isTerminal] at hterm

/-- Witness for the amended C9 at a concrete upload. -/
theorem sink_gets_single_terminal_event_never_started_witness :
    (entryLogs (upload_file_to_s3 wJob wEntryA "/r/a.fits" "B" "k/a.fits" okClient wFS)).length
      = 1 ∧
    ∀ l ∈ entryLogs (upload_file_to_s3 wJob wEntryA "/r/a.fits" "B" "k/a.fits" okClient wFS),
      l.status ≠ JobEntryStatus.STARTED :=
  sink_gets_single_terminal_event_never_started wJob wEntryA "/r/a.fits" "B" "k/a.fits" okClient wFS

/-- C10: when the manifest has no entry list or an empty one, the batch returns immediately: the run trace is only the RUNNING update posted by `run_job`, with no per-entry outcome and no COMPLETED update, so the job stays RUNNING. -/
theorem empty_manifest_returns_without_completion (job : Job) (m : Manifest)
    (bucket_name : String) (client : S3Client) (fs : FS)
    (hempty : m.entries = none ∨ m.entries = some []) :
    run_job job m bucket_name client fs = [Event.jobUpdate JobStatus.RUNNING none] ∧
    entryLogs (run_job job m bucket_name client fs) = [] ∧
    ∀ msg, Event.jobUpdate JobStatus.COMPLETED msg ∉ run_job job m bucket_name client fs := by
  have hbatch : upload_to_s3_in_batch
      { job with manifest := some m, status := JobStatus.RUNNING }
      bucket_name client fs = [] := by
    unfold upload_to_s3_in_batch
    rcases hempty with h | h <;> simp [h]
  unfold run_job
  dsimp only
  rw [hbatch]
  refine ⟨rfl, by simp [entryLogs, entryLogOf], ?_⟩
  intro msg hmem
  simp at hmem

/-- Witness for C10 at a concrete manifest with `entries = None`. -/
theorem empty_manifest_returns_without_completion_witness :
    (emptyManifest.entries = none ∨ emptyManifest.entries = some []) ∧
    run_job wJob emptyManifest "B" okClient wFS
      = [Event.jobUpdate JobStatus.RUNNING none] ∧
    entryLogs (run_job wJob emptyManifest "B" okClient wFS) = [] ∧
    ∀ msg, Event.jobUpdate JobStatus.COMPLETED msg
      ∉ run_job wJob emptyManifest "B" okClient wFS :=
  ⟨Or.inl rfl, empty_manifest_returns_without_completion wJob emptyManifest "B" okClient wFS (Or.inl rfl)⟩

end SpherexS3
